import Mathlib

/-
Verification development for the build-execution core of concourse/turbine.

The Go source is shallowly embedded:
  - Go structs become Lean structures; map[string]string becomes an
    association list (List (String x String)); Go map insertion is modelled
    as replace-or-prepend, which has the same lookup/value-set semantics.
  - Stateful code is modelled by explicit result values plus an action trace.
  - Concurrent fan-in loops are modelled by the list of task results in the
    (arbitrary) order the collecting loop receives them.
  - error values become Option String / Except-style sums.
-/

namespace Turbine

/-- One name/value metadata entry (api/builds: MetadataField). -/
structure MetadataField where
  name : String
  value : String
deriving DecidableEq

/-- Go map[string]string values (builds.Version, builds.Source, builds.Params)
modelled as association lists. -/
abbrev KVMap := List (String × String)

/-- builds.OutputCondition: the conditions under which an output is performed. -/
inductive OutputCondition
  | success
  | failure
deriving DecidableEq

/-- builds.Input: name, type, source, params; version and metadata are filled
in by the fetcher. -/
structure Input where
  name : String
  type : String
  source : KVMap
  params : KVMap
  version : KVMap
  metadata : List MetadataField
deriving DecidableEq

/-- builds.Output.  The field set is the union over the revisions present in
the repository (the prole-era Output carries SourcePath, the turbine-era
Output carries On); a revision that lacks a field treats it as its zero value. -/
structure Output where
  name : String
  type : String
  source : KVMap
  params : KVMap
  onConditions : List OutputCondition
  sourcePath : String
  version : KVMap
  metadata : List MetadataField
deriving DecidableEq

/-- builder.go 307-315: the implicit output synthesized from an input of the
completed build: Output{Name, Type, Source, Version, Metadata}; params and
conditions are left at their zero values. -/
def inputToOutput (i : Input) : Output :=
  { name := i.name
    type := i.type
    source := i.source
    params := []
    onConditions := []
    sourcePath := ""
    version := i.version
    metadata := i.metadata }

/-
The Go map[string]builds.Output keyed by output name (builder.go allOutputs).
Every assignment in the source uses the value's own Name as the key, so the
map is modelled as a list of Outputs in which a newly inserted output
replaces any existing output of the same name.
-/

/-- Assignment m[o.Name] = o on a name-keyed Go map of outputs. -/
def insertOutput (m : List Output) (o : Output) : List Output :=
  o :: m.filter (fun p => p.name != o.name)

/-- builder.go 306-315: allOutputs seeded with one implicit output per input. -/
def implicitOutputs (inputs : List Input) : List Output :=
  (inputs.map inputToOutput).foldl insertOutput []

/-- builder.go 366-377: each performed output (in the order the results
channel delivers them) overwrites allOutputs at its name, and the function
returns the value set of the final map. -/
def performOutputsResult (inputs : List Input) (performed : List Output) : List Output :=
  performed.foldl insertOutput (implicitOutputs inputs)

theorem mem_insertOutput {m : List Output} {p o : Output} :
    p ∈ insertOutput m o ↔ p = o ∨ (p ∈ m ∧ p.name ≠ o.name) := by
  simp [insertOutput, List.mem_filter, bne_iff_ne]

theorem mem_foldl_insertOutput (os : List Output) (m : List Output) (p : Output)
    (hs : (os.map Output.name).Nodup) :
    p ∈ os.foldl insertOutput m ↔
      p ∈ os ∨ (p ∈ m ∧ p.name ∉ os.map Output.name) := by
  induction os generalizing m with
  | nil => simp
  | cons o rest ih =>
    simp only [List.map_cons, List.nodup_cons] at hs
    obtain ⟨hno, hrest⟩ := hs
    rw [List.foldl_cons, ih _ hrest]
    constructor
    · rintro (hp | ⟨hp, hnames⟩)
      · exact Or.inl (List.mem_cons_of_mem o hp)
      · rcases mem_insertOutput.mp hp with heq | ⟨hpm, hne⟩
        · exact Or.inl (heq ▸ List.mem_cons_self o rest)
        · refine Or.inr ⟨hpm, ?_⟩
          simp only [List.map_cons, List.mem_cons]
          rintro (h | h)
          · exact hne h
          · exact hnames h
    · rintro (hp | ⟨hpm, hnames⟩)
      · rcases List.mem_cons.mp hp with heq | hp
        · refine Or.inr ⟨mem_insertOutput.mpr (Or.inl heq), ?_⟩
          rw [heq]
          exact hno
        · exact Or.inl hp
      · simp only [List.map_cons, List.mem_cons, not_or] at hnames
        exact Or.inr ⟨mem_insertOutput.mpr (Or.inr ⟨hpm, hnames.1⟩), hnames.2⟩

/-- C1: for every completed build, the outputs returned by the finishing
phase (builder.Complete via performOutputs, builder.go 298-378) are exactly
the union of the performed outputs and the implicit outputs (one synthesized
per input) whose name was not overwritten by a performed output; overwriting
is keyed by output name. -/
theorem performOutputs_merge_union (inputs : List Input) (performed : List Output)
    (o : Output)
    (hin : (inputs.map Input.name).Nodup)
    (hperf : (performed.map Output.name).Nodup) :
    o ∈ performOutputsResult inputs performed ↔
      o ∈ performed ∨
        (o ∈ inputs.map inputToOutput ∧ o.name ∉ performed.map Output.name) := by
  unfold performOutputsResult
  rw [mem_foldl_insertOutput performed _ o hperf]
  unfold implicitOutputs
  have hnames : ((inputs.map inputToOutput).map Output.name).Nodup := by
    rw [List.map_map]
    have : (Output.name ∘ inputToOutput) = Input.name := by
      funext i
      rfl
    rw [this]
    exact hin
  rw [mem_foldl_insertOutput _ [] o hnames]
  simp

def exInputA : Input :=
  { name := "a"
    type := "git"
    source := [("uri", "src-a")]
    params := []
    version := [("ref", "1")]
    metadata := [{ name := "k", value := "va" }] }

def exInputB : Input :=
  { name := "b"
    type := "git"
    source := [("uri", "src-b")]
    params := []
    version := [("ref", "2")]
    metadata := [] }

def exPerformedB : Output :=
  { name := "b"
    type := "git"
    source := [("uri", "src-b")]
    params := []
    onConditions := [OutputCondition.success]
    sourcePath := ""
    version := [("ref", "9")]
    metadata := [{ name := "out", value := "vb" }] }

theorem performOutputs_merge_union_witness :
    inputToOutput exInputA ∈ performOutputsResult [exInputA, exInputB] [exPerformedB] :=
  (performOutputs_merge_union [exInputA, exInputB] [exPerformedB] (inputToOutput exInputA)
      (by decide) (by decide)).mpr (Or.inr (by decide))

/-
Selection of the outputs handed to the output-performing step.

In src/builder/builder.go the finishing phase is Complete, which calls
performOutputs; its loop at line 321 launches one goroutine per element of
build.Outputs, consulting no condition and no exit status (Complete is only
reachable for builds whose process exited 0).  The repository, in its own
Finish tests (src/unnamed/part_001 and part_002) and in the spec, requires
the selection to filter build.Outputs by the On condition set against the
exit status; that filter is absent from src/builder/builder.go.
-/

/-- builder.go 317-360: the set of outputs over which performing goroutines
are launched is all of build.Outputs, unconditionally. -/
def outputsHandedToPerform (outputs : List Output) : List Output :=
  outputs

/-- Modelled from the spec: the outputs chosen for performing are exactly
those whose conditions contain success when exitStatus equals 0, and failure
otherwise.  This filter exists only in the repository tests and the spec,
not in src/builder/builder.go. -/
def specOutputsToPerform (outputs : List Output) (exitStatus : Nat) : List Output :=
  outputs.filter (fun o =>
    decide ((if exitStatus = 0 then OutputCondition.success else OutputCondition.failure)
      ∈ o.onConditions))

def exOnSuccess : Output :=
  { name := "on-success"
    type := "some-type"
    source := [("uri", "http-success-uri")]
    params := [("key", "success-param")]
    onConditions := [OutputCondition.success]
    sourcePath := ""
    version := []
    metadata := [] }

def exOnBoth : Output :=
  { name := "on-success-or-failure"
    type := "some-type"
    source := [("uri", "http-success-or-failure-uri")]
    params := [("key", "success-or-failure-param")]
    onConditions := [OutputCondition.success, OutputCondition.failure]
    sourcePath := ""
    version := []
    metadata := [] }

def exOnFailure : Output :=
  { name := "on-failure"
    type := "some-type"
    source := [("uri", "http-failure-uri")]
    params := [("key", "failure-param")]
    onConditions := [OutputCondition.failure]
    sourcePath := ""
    version := []
    metadata := [] }

/-- C2 (code divergence record): on the build with outputs conditioned on
success, success-or-failure, and failure, the code in builder.go hands all
three outputs to the performing step, while the condition filter demanded by
the claim (and by the Finish tests in the repository) selects only the two
success-conditioned outputs for exit status 0. -/
theorem complete_performs_all_outputs_eval :
    outputsHandedToPerform [exOnSuccess, exOnBoth, exOnFailure] =
        [exOnSuccess, exOnBoth, exOnFailure] ∧
      specOutputsToPerform [exOnSuccess, exOnBoth, exOnFailure] 0 =
        [exOnSuccess, exOnBoth] ∧
      outputsHandedToPerform [exOnSuccess, exOnBoth, exOnFailure] ≠
        specOutputsToPerform [exOnSuccess, exOnBoth, exOnFailure] 0 :=
  ⟨rfl, by decide, by decide⟩

/-
Websocket event emitter, src/event/emitter.go 39-56.

EmitEvent loops: connect (dialing retries internally until a connection is
established), WriteJSON the envelope, and on a write error close the current
connection and sleep one second before the next attempt.  The loop exits
only after a successful write and then returns nil.

The loop is embedded over the finite list of write outcomes the transport
will produce, in order.  A run that never sees a successful write never
returns; the embedding yields none for it.
-/

/-- Outcome of one WriteJSON attempt. -/
inductive WriteOutcome
  | ok
  | fail
deriving DecidableEq

/-- Observable steps of the EmitEvent loop. -/
inductive EmitAction
  | connect
  | write
  | closeConn
  | sleepOneSec
deriving DecidableEq

/-- The trace of an EmitEvent run whose first k writes failed: k rounds of
connect, write, close, one-second sleep, then a final connect and successful
write. -/
def emitRetryTrace : Nat → List EmitAction
  | 0 => [EmitAction.connect, EmitAction.write]
  | k + 1 =>
      [EmitAction.connect, EmitAction.write, EmitAction.closeConn, EmitAction.sleepOneSec]
        ++ emitRetryTrace k

/-- event/emitter.go 39-56: the EmitEvent retry loop over the successive
write outcomes; returns the action trace and the error returned to the
caller, or none when no write ever succeeds (the loop never returns). -/
def emitEventLoop : List WriteOutcome → Option (List EmitAction × Option String)
  | [] => none
  | WriteOutcome.ok :: _ => some ([EmitAction.connect, EmitAction.write], none)
  | WriteOutcome.fail :: rest =>
      match emitEventLoop rest with
      | none => none
      | some (acts, res) =>
          some ([EmitAction.connect, EmitAction.write, EmitAction.closeConn,
                  EmitAction.sleepOneSec] ++ acts, res)

/-- C3: EmitEvent returns only after a write succeeds on some connection:
if a successful write occurs, the loop performs one connect-write-close-
sleep round per preceding failed write and finishes with the successful
write, returning a nil error; if no write ever succeeds the loop never
returns (and in particular never surfaces a transport failure). -/
theorem emitEvent_retry_spec (outcomes : List WriteOutcome) :
    (WriteOutcome.ok ∈ outcomes →
      emitEventLoop outcomes =
        some (emitRetryTrace (outcomes.takeWhile (fun o => o == WriteOutcome.fail)).length,
          none)) ∧
      (WriteOutcome.ok ∉ outcomes → emitEventLoop outcomes = none) := by
  induction outcomes with
  | nil =>
      exact ⟨fun h => absurd h (List.not_mem_nil _), fun _ => rfl⟩
  | cons o rest ih =>
      cases o with
      | ok =>
          refine ⟨fun _ => ?_, fun h => absurd (List.mem_cons_self _ _) h⟩
          simp [emitEventLoop, emitRetryTrace]
      | fail =>
          constructor
          · intro h
            have hrest : WriteOutcome.ok ∈ rest := by
              rcases List.mem_cons.mp h with h1 | h2
              · exact absurd h1 (by decide)
              · exact h2
            have hloop := ih.1 hrest
            simp [emitEventLoop, hloop, emitRetryTrace]
          · intro h
            have hrest : WriteOutcome.ok ∉ rest := fun hr => h (List.mem_cons_of_mem _ hr)
            have hloop := ih.2 hrest
            simp [emitEventLoop, hloop]

theorem emitEvent_retry_spec_witness :
    emitEventLoop [WriteOutcome.fail, WriteOutcome.ok] = some (emitRetryTrace 1, none) :=
  (emitEvent_retry_spec [WriteOutcome.fail, WriteOutcome.ok]).1 (by decide)

/-
Parallel output performer, src/unnamed/part_000 (package outputs),
parallelPerformer.PerformOutputs.

One goroutine is launched per submitted output; goroutine i either fails at
some stage (StreamOut, tracker.Init, resource.Out) and sends its error, or
writes its computed output into slot i of resultingOutputs and sends nil.
The collecting loop (lines 74-80) receives exactly one error slot per task,
in scheduler-dependent arrival order, keeping the latest non-nil error; on
any error the call returns (nil, err), otherwise (resultingOutputs, nil).

The embedding takes the per-task final results as a function from task
index, and the arrival order of the error slots as a list of indices that is
a permutation of the task indices.
-/

/-- Errors inside the performer; ErrAborted is one distinguished value. -/
inductive PerformError
  | aborted
  | otherErr (msg : String)
deriving DecidableEq

/-- The Go zero value of builds.Output, left in any slot whose task failed. -/
def zeroOutput : Output :=
  { name := ""
    type := ""
    source := []
    params := []
    onConditions := []
    sourcePath := ""
    version := []
    metadata := [] }

/-- The error component of a task result. -/
def errOf : Except PerformError Output → Option PerformError
  | Except.error e => some e
  | Except.ok _ => none

/-- part_000 74-80: the fan-in loop receives one error slot per task in
arrival order; each non-nil error overwrites outputErr. -/
def collectedError (results : Nat → Except PerformError Output) (arrival : List Nat) :
    Option PerformError :=
  arrival.foldl
    (fun acc i =>
      match results i with
      | Except.error e => some e
      | Except.ok _ => acc)
    none

/-- part_000 31 and 68: resultingOutputs has one slot per submitted output;
slot i is written only by a successful task i. -/
def resultingOutputs (n : Nat) (results : Nat → Except PerformError Output) : List Output :=
  (List.range n).map (fun i =>
    match results i with
    | Except.ok o => o
    | Except.error _ => zeroOutput)

/-- part_000 25-87: PerformOutputs returns the pair (returned slice, returned
error): (nil, err) when any task failed, (resultingOutputs, nil) otherwise. -/
def performOutputsPar (outputs : List Output) (results : Nat → Except PerformError Output)
    (arrival : List Nat) : Option (List Output) × Option PerformError :=
  match collectedError results arrival with
  | some e => (none, some e)
  | none => (some (resultingOutputs outputs.length results), none)

theorem collectedError_foldl_eq (results : Nat → Except PerformError Output)
    (arrival : List Nat) (init : Option PerformError) :
    arrival.foldl
        (fun acc i =>
          match results i with
          | Except.error e => some e
          | Except.ok _ => acc)
        init =
      match (arrival.reverse.filterMap (fun i => errOf (results i))).head? with
      | some e => some e
      | none => init := by
  induction arrival generalizing init with
  | nil => rfl
  | cons i rest ih =>
      rw [List.foldl_cons, ih]
      rcases hrest : (rest.reverse.filterMap (fun j => errOf (results j))).head? with _ | e
      · have hnil : rest.reverse.filterMap (fun j => errOf (results j)) = [] :=
          List.head?_eq_none_iff.mp hrest
        rw [List.reverse_cons, List.filterMap_append, hnil, List.nil_append,
          List.filterMap_cons, List.filterMap_nil]
        rcases hi : results i with e0 | o0
        · rfl
        · rfl
      · have hne : rest.reverse.filterMap (fun j => errOf (results j)) ≠ [] := by
          intro hnil
          rw [hnil] at hrest
          exact Option.noConfusion hrest
        rw [List.reverse_cons, List.filterMap_append, List.head?_append_of_ne_nil _ hne,
          hrest]

/-- Every task index appearing in an arrival list on which no error was
collected produced a successful result. -/
theorem collectedError_none_ok (results : Nat → Except PerformError Output)
    (arrival : List Nat) (h : collectedError results arrival = none) :
    ∀ i ∈ arrival, ∃ o, results i = Except.ok o := by
  intro i hi
  rcases hr : results i with e | o
  · exfalso
    rw [collectedError, collectedError_foldl_eq] at h
    rcases hhead : (arrival.reverse.filterMap (fun j => errOf (results j))).head? with _ | e0
    · have hnil : arrival.reverse.filterMap (fun j => errOf (results j)) = [] :=
        List.head?_eq_none_iff.mp hhead
      have hmem : e ∈ arrival.reverse.filterMap (fun j => errOf (results j)) := by
        refine List.mem_filterMap.mpr ⟨i, List.mem_reverse.mpr hi, ?_⟩
        rw [hr]
        rfl
      rw [hnil] at hmem
      exact List.not_mem_nil _ hmem
    · rw [hhead] at h
      exact Option.noConfusion h
  · exact ⟨o, rfl⟩

/-- C10: a call to the parallel performer that returns with a nil error
returns a slice of exactly the submitted length whose i-th element is the
performed result of the i-th submitted output, whatever order the
per-output task results arrived in. -/
theorem performOutputs_positional (outputs : List Output)
    (results : Nat → Except PerformError Output) (arrival : List Nat)
    (hperm : List.Perm arrival (List.range outputs.length))
    (hok : (performOutputsPar outputs results arrival).2 = none) :
    ∃ res, (performOutputsPar outputs results arrival).1 = some res ∧
      res.length = outputs.length ∧
      ∀ i, i < outputs.length → results i = Except.ok (res.getD i zeroOutput) := by
  rcases hcol : collectedError results arrival with _ | e
  · refine ⟨resultingOutputs outputs.length results, ?_, ?_, ?_⟩
    · rw [performOutputsPar, hcol]
    · simp [resultingOutputs]
    · intro i hi
      have hiar : i ∈ arrival := hperm.mem_iff.mpr (List.mem_range.mpr hi)
      obtain ⟨o, ho⟩ := collectedError_none_ok results arrival hcol i hiar
      have hlen : i < (resultingOutputs outputs.length results).length := by
        simpa [resultingOutputs] using hi
      rw [ho, List.getD_eq_getElem _ _ hlen]
      simp only [resultingOutputs, List.getElem_map, List.getElem_range, ho]
  · exfalso
    rw [performOutputsPar, hcol] at hok
    exact Option.noConfusion hok

def exOutsC10 : List Output := [exOnSuccess, exOnBoth]

def exPerfA : Output :=
  { exOnSuccess with version := [("v", "pa")], metadata := [{ name := "output", value := "a" }] }

def exPerfB : Output :=
  { exOnBoth with version := [("v", "pb")], metadata := [{ name := "output", value := "b" }] }

def exOkResults : Nat → Except PerformError Output := fun i =>
  if i = 0 then Except.ok exPerfA else Except.ok exPerfB

theorem performOutputs_positional_witness :
    ∃ res, (performOutputsPar exOutsC10 exOkResults [1, 0]).1 = some res ∧
      res.length = exOutsC10.length ∧
      ∀ i, i < exOutsC10.length → exOkResults i = Except.ok (res.getD i zeroOutput) :=
  performOutputs_positional exOutsC10 exOkResults [1, 0] (by decide) (by decide)

/-- C4 counterexample: with two failing tasks whose error slots arrive in
index order, the performer returns the second (last-arriving) error, not the
first one, so the first-non-abort-error claim is false at this input. -/
def exFailResults : Nat → Except PerformError Output := fun i =>
  if i = 0 then Except.error (PerformError.otherErr "first-error")
  else Except.error (PerformError.otherErr "second-error")

theorem performOutputs_first_error_counterexample :
    performOutputsPar exOutsC10 exFailResults [0, 1] =
        (none, some (PerformError.otherErr "second-error")) ∧
      PerformError.otherErr "second-error" ≠ PerformError.otherErr "first-error" :=
  ⟨by decide, by decide⟩

/-- C4 (amended): when one or more per-output tasks fail, the call awaits
every launched task (the collection loop always consumes one result per
task) and then returns a nil output list together with the last non-nil
error in result-arrival order; abort errors receive no special treatment.
It never returns a partial list of performed outputs. -/
theorem performOutputs_last_error_spec (outputs : List Output)
    (results : Nat → Except PerformError Output) (arrival : List Nat) (e : PerformError)
    (hlast : (arrival.reverse.filterMap (fun i => errOf (results i))).head? = some e) :
    performOutputsPar outputs results arrival = (none, some e) := by
  rw [performOutputsPar, collectedError, collectedError_foldl_eq, hlast]

theorem performOutputs_last_error_spec_witness :
    performOutputsPar exOutsC10 exFailResults [0, 1] =
      (none, some (PerformError.otherErr "second-error")) :=
  performOutputs_last_error_spec exOutsC10 exFailResults [0, 1]
    (PerformError.otherErr "second-error") (by decide)

/-
Event model and envelope serialization, src/event/message.go.

The event kinds are those used across the repository sources: Log and
Status (the two kinds src/event/message.go decodes), plus the kinds emitted
by the builder and asserted by its tests (Initialize, Start, Finish, Error,
Input, Output).  The type declarations of the kinds themselves (events.go)
are not under src; their payload fields follow the callers and the spec.

MarshalJSON writes the envelope with the numeric type tag of the event and
the JSON of the event as payload; the payload here is modelled as the event
value itself, standing for the JSON bytes it marshals to.  UnmarshalJSON
switches on the type tag and decodes the payload only for the Log and
Status tags; every other tag hits the default branch and produces an
unknown-event-type error (message.go 48-50).
-/

/-- Run configuration of a build (builds.RunConfig). -/
structure RunConfig where
  path : String
  args : List String
deriving DecidableEq

/-- Build configuration (builds.Config). -/
structure Config where
  image : String
  params : KVMap
  run : RunConfig
  paths : KVMap
deriving DecidableEq

/-- Origin tag on log events.  The origin type constants of the event
package are modelled as the strings input, output and run. -/
structure Origin where
  type : String
  name : String
deriving DecidableEq

def originTypeInput : String := "input"

def originTypeOutput : String := "output"

def originTypeRun : String := "run"

/-- The event kinds of the repository.  Constructor names carry an Ev
suffix where the Go name would collide with reserved Lean syntax. -/
inductive Event
  | log (payload : String) (origin : Origin)
  | status (status : String)
  | initEv (buildConfig : Config)
  | startEv (time : Int)
  | finishEv (time : Int) (exitStatus : Int)
  | errorEv (message : String)
  | inputEv (input : Input)
  | outputEv (output : Output)
deriving DecidableEq

/-- The stable numeric type tags, one per event kind. -/
inductive EventType
  | logType
  | statusType
  | initType
  | startType
  | finishType
  | errorType
  | inputType
  | outputType
deriving DecidableEq

/-- EventType() of each event kind. -/
def Event.eventType : Event → EventType
  | Event.log _ _ => EventType.logType
  | Event.status _ => EventType.statusType
  | Event.initEv _ => EventType.initType
  | Event.startEv _ => EventType.startType
  | Event.finishEv _ _ => EventType.finishType
  | Event.errorEv _ => EventType.errorType
  | Event.inputEv _ => EventType.inputType
  | Event.outputEv _ => EventType.outputType

/-- The wire envelope: the numeric type tag and the marshalled event
payload (modelled by the event value it decodes from). -/
structure Envelope where
  type : EventType
  payload : Event
deriving DecidableEq

/-- message.go 17-29: Message.MarshalJSON. -/
def marshalMessage (e : Event) : Envelope :=
  { type := e.eventType, payload := e }

/-- json.Unmarshal of the payload into a Log value.  A payload that is not
a Log marshals to a JSON object with no Log fields, so decoding yields the
zero Log; that branch is unreachable for envelopes built by
marshalMessage. -/
def decodeLogPayload : Event → Event
  | Event.log p o => Event.log p o
  | _ => Event.log "" { type := "", name := "" }

/-- json.Unmarshal of the payload into a Status value; as with
decodeLogPayload, the mismatch branch yields the zero Status. -/
def decodeStatusPayload : Event → Event
  | Event.status s => Event.status s
  | _ => Event.status ""

/-- Failure of Message.UnmarshalJSON: the default branch of the type
switch, fmt.Errorf with the unknown numeric tag. -/
inductive DecodeError
  | unknownEventType (t : EventType)
deriving DecidableEq

/-- message.go 31-53: Message.UnmarshalJSON switches on the envelope type
and handles only the Log and Status tags. -/
def unmarshalMessage (env : Envelope) : Except DecodeError Event :=
  match env.type with
  | EventType.logType => Except.ok (decodeLogPayload env.payload)
  | EventType.statusType => Except.ok (decodeStatusPayload env.payload)
  | t => Except.error (DecodeError.unknownEventType t)

def exConfig : Config :=
  { image := "img"
    params := [("FOO", "bar")]
    run := { path := "/bin/true", args := [] }
    paths := [] }

/-- C5 counterexample: marshalling an Initialize event and unmarshalling
the envelope does not return the event; the decoder of message.go knows
only the Log and Status tags and rejects the envelope. -/
theorem message_roundtrip_counterexample :
    unmarshalMessage (marshalMessage (Event.initEv exConfig)) =
        Except.error (DecodeError.unknownEventType EventType.initType) ∧
      unmarshalMessage (marshalMessage (Event.initEv exConfig)) ≠
        Except.ok (Event.initEv exConfig) :=
  ⟨rfl, fun h => Except.noConfusion h⟩

/-- C5 (amended): encode followed by decode is the identity exactly on the
Log and Status event kinds; for an event of any other kind the decoder
fails with an unknown-event-type error carrying the event type tag. -/
theorem message_roundtrip_amended (e : Event) :
    unmarshalMessage (marshalMessage e) =
      (if e.eventType = EventType.logType ∨ e.eventType = EventType.statusType
        then Except.ok e
        else Except.error (DecodeError.unknownEventType e.eventType)) := by
  cases e <;>
    simp [unmarshalMessage, marshalMessage, Event.eventType, decodeLogPayload,
      decodeStatusPayload]

/-
Streaming fetched inputs into the build container, src/builder/builder.go.

Start keeps resources, a Go map from input name to the tar stream returned
by the fetch (line 75 and 101), and streamInResources (lines 222-240)
iterates it, streaming each entry into the container at
/tmp/build/src/ + paths[name] when the merged config carries a path
remapping for the name, else /tmp/build/src/ + name.  When build.Inputs is
empty the map is empty and no StreamIn call is made at all.
-/

/-- Assignment m[k] = v on a Go map[string]string. -/
def mapInsertS (m : KVMap) (k v : String) : KVMap :=
  (k, v) :: m.filter (fun p => p.1 != k)

/-- Lookup in a Go map[string]string. -/
def mapLookupS (m : KVMap) (k : String) : Option String :=
  (m.find? (fun p => p.1 == k)).map Prod.snd

/-- One container.StreamIn call: its destination and the streamed tar. -/
structure StreamInCall where
  destination : String
  source : String
deriving DecidableEq

/-- builder.go 75, 101: the resources map built while fetching, keyed by
input name; streamOf names the tar stream each fetch produced. -/
def startResources (inputs : List Input) (streamOf : Input → String) : KVMap :=
  inputs.foldl (fun m i => mapInsertS m i.name (streamOf i)) []

/-- builder.go 222-240: streamInResources issues one StreamIn per entry of
the resources map, remapping the destination through config.Paths. -/
def streamInResources (resources : KVMap) (paths : KVMap) : List StreamInCall :=
  resources.map (fun p =>
    { destination := "/tmp/build/src/" ++ ((mapLookupS paths p.1).getD p.1)
      source := p.2 })

/-- C6 (code divergence record): for a build with no inputs Start issues no
StreamIn call whatsoever (the claim and the test in src/unnamed/part_002
require exactly one empty tar streamed to /tmp/build/src), while for
fetched inputs the destinations do follow the claimed
/tmp/build/src/ + (paths[name] or name) rule. -/
theorem streamIn_no_inputs_eval :
    (∀ (paths : KVMap) (streamOf : Input → String),
        streamInResources (startResources [] streamOf) paths = []) ∧
      streamInResources (startResources [exInputA, exInputB] (fun i => "tar:" ++ i.name))
          [("a", "custom/a-path")] =
        [{ destination := "/tmp/build/src/b", source := "tar:b" },
          { destination := "/tmp/build/src/custom/a-path", source := "tar:a" }] :=
  ⟨fun _ _ => rfl, by decide⟩

/-
Waiting for the build process, src/builder/builder.go 135-179 and 269-296.

waitForRunToEnd selects on the wait result, a wait error, and the abort
channel; on abort it calls running.Container.Stop(false) and returns
ErrAborted, emitting no event.  Attach then either propagates the error, or
inspects the exit status: a non-zero status is turned into the failure
error (exit status d) with an empty SucceededBuild, and only status 0
yields a SucceededBuild value.
-/

/-- Which of the three select arms fires while waiting on the process. -/
inductive WaitOutcome
  | exited (status : Nat)
  | waitErr (msg : String)
  | aborted
deriving DecidableEq

/-- Side effects of the builder observable by the container runtime and the
emitter. -/
inductive BuilderAction
  | stopContainer (kill : Bool)
  | emitError (message : String)
deriving DecidableEq

/-- builder.go 269-296: waitForRunToEnd returns the exit status or an
error, together with the container actions it performed.  ErrAborted is the
error string build aborted. -/
def waitForRunToEnd : WaitOutcome → Except String Nat × List BuilderAction
  | WaitOutcome.exited status => (Except.ok status, [])
  | WaitOutcome.waitErr msg => (Except.error msg, [])
  | WaitOutcome.aborted =>
      (Except.error "build aborted", [BuilderAction.stopContainer false])

/-- The value Attach produces from the wait outcome (builder.go 163-178):
a SucceededBuild only for exit status 0, the failure error (exit status d)
for a non-zero status, or the propagated wait error. -/
inductive AttachResult
  | succeededBuild
  | failed (msg : String)
  | errored (msg : String)
deriving DecidableEq

/-- builder.go 135-179: the tail of Attach after wiring container and
process, as a function of the wait outcome. -/
def attachAfterWait (w : WaitOutcome) : AttachResult × List BuilderAction :=
  match waitForRunToEnd w with
  | (Except.error e, acts) => (AttachResult.errored e, acts)
  | (Except.ok status, acts) =>
      if status ≠ 0 then (AttachResult.failed ("exit status " ++ toString status), acts)
      else (AttachResult.succeededBuild, acts)

/-- C7 (code divergence record): when the abort arm fires during the wait,
the code stops the build container exactly once with kill false and returns
ErrAborted, but performs no emit at all: its complete action list is the
single Stop call, with no Error event carrying running failed: build
aborted, which the claim (and the test in src/unnamed/part_002) requires. -/
theorem waitForRunToEnd_abort_eval :
    waitForRunToEnd WaitOutcome.aborted =
        (Except.error "build aborted", [BuilderAction.stopContainer false]) ∧
      attachAfterWait WaitOutcome.aborted =
        (AttachResult.errored "build aborted", [BuilderAction.stopContainer false]) :=
  ⟨rfl, rfl⟩

/-- C8 (code divergence record): when the process exits with status 2, the
code returns the failure error (exit status 2) and an empty SucceededBuild
rather than an exited-build value carrying exitStatus 2 as the claim (and
the tests in src/unnamed/part_001 and part_002) requires; only exit status
0 produces a build value. -/
theorem attach_nonzero_exit_eval :
    attachAfterWait (WaitOutcome.exited 2) = (AttachResult.failed "exit status 2", []) ∧
      attachAfterWait (WaitOutcome.exited 0) = (AttachResult.succeededBuild, []) :=
  ⟨by decide, by decide⟩

/-
Resource Out, src/unnamed/part_008.

Out first streams the provided source tar into the resource container at
the fixed path /tmp/build/src (streamInSource, lines 44-56), then runs the
script /tmp/resource/out path.Join(/tmp/build/src, output.SourcePath) with
the output params as request, and on success copies the version and
metadata of the script response onto the submitted output, leaving every
other field unchanged.  The internals of runScript live outside src; its
outcome is a parameter of the embedding.
-/

/-- Response payload of the out script (part_008 outResponse). -/
structure OutResponse where
  version : KVMap
  metadata : List MetadataField
deriving DecidableEq

/-- Container-level steps Out performs, in order. -/
inductive ResourceAction
  | streamInAct (destination : String)
  | runScriptAct (cmd : String)
deriving DecidableEq

/-- Go path.Join of the fixed source root with the output SourcePath. -/
def pathJoin (base p : String) : String :=
  if p = "" then base else base ++ "/" ++ p

/-- The script invocation of part_008 line 29-30. -/
def outScriptCmd (output : Output) : String :=
  "/tmp/resource/out " ++ pathJoin "/tmp/build/src" output.sourcePath

/-- part_008 21-42: resource.Out, parametrized by the outcome of the
stream-in and of the script run.  Returns the result and the ordered
container actions. -/
def resourceOut (output : Output) (streamInErr : Option String)
    (script : Except String OutResponse) :
    Except String Output × List ResourceAction :=
  match streamInErr with
  | some e => (Except.error e, [ResourceAction.streamInAct "/tmp/build/src"])
  | none =>
      match script with
      | Except.error e =>
          (Except.error e,
            [ResourceAction.streamInAct "/tmp/build/src",
              ResourceAction.runScriptAct (outScriptCmd output)])
      | Except.ok resp =>
          (Except.ok { output with version := resp.version, metadata := resp.metadata },
            [ResourceAction.streamInAct "/tmp/build/src",
              ResourceAction.runScriptAct (outScriptCmd output)])

/-- C9: every successful Out streams the source tar into the container at
the fixed path /tmp/build/src strictly before running the out script, and
returns the submitted output with only version and metadata replaced by the
script response; name, type, source, params, conditions and source path are
unchanged. -/
theorem resource_out_spec (output : Output) (resp : OutResponse) :
    ∃ r, (resourceOut output none (Except.ok resp)).1 = Except.ok r ∧
      r.name = output.name ∧
      r.type = output.type ∧
      r.source = output.source ∧
      r.params = output.params ∧
      r.onConditions = output.onConditions ∧
      r.sourcePath = output.sourcePath ∧
      r.version = resp.version ∧
      r.metadata = resp.metadata ∧
      (resourceOut output none (Except.ok resp)).2 =
        [ResourceAction.streamInAct "/tmp/build/src",
          ResourceAction.runScriptAct (outScriptCmd output)] :=
  ⟨{ output with version := resp.version, metadata := resp.metadata },
    rfl, rfl, rfl, rfl, rfl, rfl, rfl, rfl, rfl, rfl⟩

end Turbine
